import Mathlib

/-!
Verification of the Downstream Resilience & Order Orchestration Subsystem
of the e-commerce microservices repository.

The embedding covers:
* the gRPC failure classifier `isBreakerFailure` and the breaker settings
  (`readyToTrip`, `IsSuccessful`) from
  `pkg/grpcmiddleware` (circuit-breaker interceptor);
* the circuit-breaker state machine itself (the `sony/gobreaker` dependency,
  not part of this repository), modelled from the spec, with the
  repository's `readyToTrip` and classifier plugged in;
* the OrderService use case layer (`CreateOrder`, `AddOrderItem`,
  `RemoveOrderItem`, `ensureUserExists`, `ensureProductExists`,
  `sumItemsTotal`, `calculateOrderTotal`) and the PostgreSQL repository
  (`OrderRepository`), with the relational store modelled as explicit
  tables and the gorm transaction as all-or-nothing state passing.

Go `float32` money values are modelled as `ℚ` (the claims are about the
algorithmic structure of the totals, clamping and max, not about binary
rounding), Go `uint` identifiers as `ℕ`, Go `int` quantities as `ℤ`.
-/

namespace ECommerce

/-! ## gRPC status codes and call errors -/

/-- The gRPC status codes (google.golang.org/grpc/codes). -/
inductive GrpcCode where
  | ok | cancelled | unknown | invalidArgument | deadlineExceeded
  | notFound | alreadyExists | permissionDenied | resourceExhausted
  | failedPrecondition | aborted | outOfRange | unimplemented
  | internal | unavailable | dataLoss | unauthenticated
  deriving DecidableEq, Repr

/-- An error value a client call (or the breaker wrapping it) can produce:
either a well-formed gRPC status error carrying a code, an error that is
not convertible to a gRPC status (`status.FromError` returns `ok = false`),
or one of the two sentinel errors produced by the breaker itself
(`gobreaker.ErrOpenState` / `gobreaker.ErrTooManyRequests`). -/
inductive CallError where
  | status (code : GrpcCode)
  | nonStatus
  | breakerOpen
  | breakerTooMany
  deriving DecidableEq, Repr

/-- `status.FromError`: recover the status code of a well-formed gRPC status
error; the breaker sentinels and other plain errors are not statuses. -/
def statusFromError : CallError → Option GrpcCode
  | .status code => some code
  | _ => none

/-- Translation of `isBreakerFailure` (pkg/grpcmiddleware circuit breaker
file): nil error is not a failure; a non-status error is a failure; a
status error is a failure exactly for Unavailable, DeadlineExceeded,
ResourceExhausted and Internal. -/
def isBreakerFailure : Option CallError → Bool
  | none => false
  | some err =>
    match statusFromError err with
    | none => true
    | some code =>
      match code with
      | .unavailable => true
      | .deadlineExceeded => true
      | .resourceExhausted => true
      | .internal => true
      | _ => false

/-- `gobreaker.Settings.IsSuccessful` as configured by the interceptor:
`!isBreakerFailure(err)`. -/
def isSuccessful (err : Option CallError) : Bool :=
  !isBreakerFailure err

/-! ## Circuit breaker -/

/-- `CircuitBreakerConfig` from the interceptor; durations are modelled as
natural-number ticks and `FailureRatio` (a Go `float64` in `[0,1]`) as `ℚ`
(field name `failureRate` in this development). -/
structure CircuitBreakerConfig where
  enabled : Bool
  maxRequests : Nat
  interval : Nat
  timeout : Nat
  failureRate : ℚ
  minRequests : Nat
  deriving Repr

/-- `gobreaker.Counts`. -/
structure Counts where
  requests : Nat
  totalSuccesses : Nat
  totalFailures : Nat
  consecutiveSuccesses : Nat
  consecutiveFailures : Nat
  deriving DecidableEq, Repr

def Counts.clear : Counts :=
  { requests := 0, totalSuccesses := 0, totalFailures := 0,
    consecutiveSuccesses := 0, consecutiveFailures := 0 }

def Counts.onSuccess (c : Counts) : Counts :=
  { requests := c.requests + 1, totalSuccesses := c.totalSuccesses + 1,
    totalFailures := c.totalFailures,
    consecutiveSuccesses := c.consecutiveSuccesses + 1,
    consecutiveFailures := 0 }

def Counts.onFailure (c : Counts) : Counts :=
  { requests := c.requests + 1, totalSuccesses := c.totalSuccesses,
    totalFailures := c.totalFailures + 1,
    consecutiveSuccesses := 0,
    consecutiveFailures := c.consecutiveFailures + 1 }

/-- Translation of `gobreaker.Settings.ReadyToTrip` as configured by the
interceptor: below `MinRequests` (when positive) never trip; with zero
requests never trip; otherwise trip when
`TotalFailures / Requests >= FailureRatio`. -/
def readyToTrip (cfg : CircuitBreakerConfig) (counts : Counts) : Bool :=
  if 0 < cfg.minRequests && counts.requests < cfg.minRequests then false
  else if counts.requests == 0 then false
  else decide (cfg.failureRate ≤ (counts.totalFailures : ℚ) / (counts.requests : ℚ))

inductive BreakerState where
  | closed | opened | halfOpen
  deriving DecidableEq, Repr

structure Breaker where
  state : BreakerState
  counts : Counts
  windowStart : Nat
  openedAt : Nat
  deriving DecidableEq, Repr

/-- A fresh (just-constructed) breaker: Closed with cleared counters. -/
def Breaker.fresh : Breaker :=
  { state := .closed, counts := Counts.clear, windowStart := 0, openedAt := 0 }

/-- Result of one guarded call: either the breaker rejected it without
invoking the wrapped target (the two rejection constructors carry no target
outcome, so a rejected call by construction never observes the target), or
the target was invoked and its outcome is returned. -/
inductive CallResult where
  | rejectedOpen
  | rejectedTooMany
  | completed (err : Option CallError)
  deriving DecidableEq, Repr

/-- Modelled from the spec: the HalfOpen behaviour of the `sony/gobreaker`
state machine (a third-party dependency, not part of this repository): up
to `MaxRequests` probes are admitted; a probe classified as a failure
returns the breaker to Open (counters cleared, `openedAt = now`);
`MaxRequests` consecutive successful probes close the breaker. -/
def halfOpenCall (cfg : CircuitBreakerConfig) (b : Breaker) (now : Nat)
    (outcome : Option CallError) : CallResult × Breaker :=
  if cfg.maxRequests ≤ b.counts.requests then
    (.rejectedTooMany, b)
  else if isBreakerFailure outcome then
    (.completed outcome,
     { state := .opened, counts := Counts.clear, windowStart := now, openedAt := now })
  else
    let counts := b.counts.onSuccess
    if cfg.maxRequests ≤ counts.consecutiveSuccesses then
      (.completed outcome,
       { state := .closed, counts := Counts.clear, windowStart := now,
         openedAt := b.openedAt })
    else
      (.completed outcome, { b with counts := counts })

/-- Modelled from the spec: one guarded call through the `sony/gobreaker`
state machine (a third-party dependency, not part of this repository),
with the repository's classifier (`isBreakerFailure`) and trip predicate
(`readyToTrip`) plugged in.  A disabled breaker is a transparent
pass-through.  Closed: roll the counting window when `Interval` has
elapsed, record the call outcome, then evaluate the trip condition.
Open: reject with the distinct breaker-open error until `Timeout` has
elapsed since `openedAt`; the first call at or after that instant moves
the breaker to HalfOpen (counters cleared) and is attempted as a probe.
`outcome` is what the wrapped target would return if invoked. -/
def breakerCall (cfg : CircuitBreakerConfig) (b : Breaker) (now : Nat)
    (outcome : Option CallError) : CallResult × Breaker :=
  if !cfg.enabled then (.completed outcome, b)
  else
    match b.state with
    | .closed =>
      let b1 :=
        if 0 < cfg.interval && b.windowStart + cfg.interval ≤ now then
          { b with counts := Counts.clear, windowStart := now }
        else b
      let counts :=
        if isBreakerFailure outcome then b1.counts.onFailure else b1.counts.onSuccess
      if readyToTrip cfg counts then
        (.completed outcome,
         { state := .opened, counts := Counts.clear, windowStart := now, openedAt := now })
      else
        (.completed outcome, { b1 with counts := counts })
    | .opened =>
      if b.openedAt + cfg.timeout ≤ now then
        halfOpenCall cfg
          { state := .halfOpen, counts := Counts.clear, windowStart := now,
            openedAt := b.openedAt } now outcome
      else
        (.rejectedOpen, b)
    | .halfOpen => halfOpenCall cfg b now outcome

/-- Fold a sequence of call outcomes (all issued at time `now`) through the
breaker, keeping only the evolving breaker state. -/
def breakerRun (cfg : CircuitBreakerConfig) (b : Breaker) (now : Nat)
    (outcomes : List (Option CallError)) : Breaker :=
  outcomes.foldl (fun b o => (breakerCall cfg b now o).2) b

/-- Number of outcomes in a list that the classifier counts as breaker
failures. -/
def failCount (outcomes : List (Option CallError)) : Nat :=
  outcomes.countP (fun o => isBreakerFailure o)

/-! ## Order domain (services/OrderService/internal/domain) -/

/-- `domain.OrderStatus` (a Go string constant; the five legal values of
the `oneof` validator). -/
inductive OrderStatus where
  | pending | paid | shipped | delivered | canceled
  deriving DecidableEq, Repr

/-- `domain.OrderItem` (a row of the `order_items` table). -/
structure OrderItem where
  id : Nat
  orderId : Nat
  productId : Nat
  quantity : Int
  unitPrice : ℚ
  totalPrice : ℚ
  deriving DecidableEq, Repr

/-- `domain.Order` without the preloaded `Items` slice: one row of the
`orders` table. -/
structure OrderRow where
  id : Nat
  userId : Nat
  shippingCost : ℚ
  shippingDurationDays : Int
  discount : ℚ
  total : ℚ
  status : OrderStatus
  deriving DecidableEq, Repr

/-- `domain.Order` with its `Items` preloaded, as returned by
`GetOrderByID` and mapped into `dto.OrderResponse`. -/
structure Order where
  id : Nat
  userId : Nat
  shippingCost : ℚ
  shippingDurationDays : Int
  discount : ℚ
  total : ℚ
  status : OrderStatus
  items : List OrderItem
  deriving DecidableEq, Repr

def mkOrder (row : OrderRow) (items : List OrderItem) : Order :=
  { id := row.id, userId := row.userId, shippingCost := row.shippingCost,
    shippingDurationDays := row.shippingDurationDays, discount := row.discount,
    total := row.total, status := row.status, items := items }

/-- `sumItemsTotal` (OrderService usecase): left fold over the items,
preferring each item's stored `TotalPrice` when it is positive and falling
back to `UnitPrice * Quantity` otherwise. -/
def sumItemsTotal (items : List OrderItem) : ℚ :=
  items.foldl
    (fun acc item =>
      if 0 < item.totalPrice then acc + item.totalPrice
      else acc + item.unitPrice * (item.quantity : ℚ))
    0

/-- `calculateOrderTotal` (OrderService usecase): clamp a negative
`discount` and a negative `shippingCost` to zero, then clamp the combined
total at zero. -/
def calculateOrderTotal (itemsTotal shippingCost discount : ℚ) : ℚ :=
  let discount2 := if discount < 0 then 0 else discount
  let shippingCost2 := if shippingCost < 0 then 0 else shippingCost
  let total := itemsTotal + shippingCost2 - discount2
  if total < 0 then 0 else total

/-! ## Errors of the order flow -/

/-- The errors the order use case / repository layer can return. The two
validator errors record the wrapped cause (`fmt.Errorf` with the verb that
preserves the error chain), `productEmpty` is the distinct
"product not found: empty response" error raised on an OK reply with no
product payload, `validationFailed` is the gRPC handler's struct-validator
rejection, and `storage` stands for a storage-layer error. -/
inductive OrderError where
  | userNotFound (cause : CallError)
  | productNotFound (cause : CallError)
  | productEmpty
  | orderNotFound
  | orderItemNotFound
  | validationFailed
  | storage
  deriving DecidableEq, Repr

/-- `errors.Unwrap` through the wrapped validator errors: recover the
underlying call error when there is one. -/
def orderErrorCause : OrderError → Option CallError
  | .userNotFound cause => some cause
  | .productNotFound cause => some cause
  | _ => none

/-- Is this call error the breaker's fast-fail rejection (as opposed to an
error produced by a reached dependency)? -/
def isBreakerRejection : CallError → Bool
  | .breakerOpen => true
  | .breakerTooMany => true
  | _ => false

/-! ## Remote environment and store -/

/-- `productpb.Product` restricted to the fields the orchestrator reads. -/
structure Product where
  id : Nat
  price : ℚ
  deriving DecidableEq, Repr

/-- The outcomes of the remote dependencies and of the storage layer for
one orchestrator operation.  `userResult` is the outcome of
`userClient.GetUserByID`; `productResult` is the outcome of
`productClient.GetProductByID`, where `.ok none` models a reply with gRPC
code OK whose `GetProduct()` is nil; `orderInsertOk` and `itemInsertOk i`
say whether the order insert and the i-th item insert inside the
`CreateOrder` transaction succeed at the database. -/
structure Env where
  userResult : Nat → Except CallError Unit
  productResult : Nat → Except CallError (Option Product)
  orderInsertOk : Bool
  itemInsertOk : Nat → Bool

/-- The relational store of the OrderService: the `orders` and
`order_items` tables plus the serial id sequences. -/
structure Store where
  orders : List OrderRow
  items : List OrderItem
  nextOrderId : Nat
  nextItemId : Nat

/-- Assign serial ids and the parent order id to the prepared items, as
the repository's item-insert loop does (`Items[i].ID = 0`,
`Items[i].OrderID = order.ID`, insert with the next serial id). -/
def assignItems (orderId : Nat) (firstId : Nat) : List OrderItem → List OrderItem
  | [] => []
  | item :: rest =>
    { item with id := firstId, orderId := orderId } :: assignItems orderId (firstId + 1) rest

/-- `OrderRepository.CreateOrder`: a single gorm transaction inserting the
order row and then each item row in turn; any failed insert rolls the
whole transaction back, leaving the store unchanged. -/
def repoCreateOrder (env : Env) (s : Store) (row : OrderRow) (items : List OrderItem) :
    Except OrderError (Store × Nat) :=
  if !env.orderInsertOk then .error .storage
  else if !(List.range items.length).all (fun i => env.itemInsertOk i) then .error .storage
  else
    let oid := s.nextOrderId
    let assigned := assignItems oid s.nextItemId items
    .ok ({ orders := s.orders ++ [{ row with id := oid }],
           items := s.items ++ assigned,
           nextOrderId := oid + 1,
           nextItemId := s.nextItemId + items.length }, oid)

/-- `OrderRepository.GetOrderByID`: `First` on the orders table with the
`Items` preload; `ErrOrderNotFound` when no row matches. -/
def repoGetOrderByID (s : Store) (id : Nat) : Except OrderError Order :=
  match s.orders.find? (fun row => row.id == id) with
  | none => .error .orderNotFound
  | some row => .ok (mkOrder row (s.items.filter (fun item => item.orderId == id)))

/-- `OrderRepository.AddOrderItem`: insert one item row with a fresh
serial id.  The `order_items.order_id` column references `orders(id)`, so
an insert for a missing order fails at the database (modelled as a
storage error). -/
def repoAddOrderItem (s : Store) (item : OrderItem) : Except OrderError Store :=
  if s.orders.any (fun row => row.id == item.orderId) then
    .ok { s with items := s.items ++ [{ item with id := s.nextItemId }],
                 nextItemId := s.nextItemId + 1 }
  else .error .storage

/-- `OrderRepository.RemoveOrderItem`: delete where `id = ? AND
order_id = ?`; `ErrOrderItemNotFound` when no row was affected. -/
def repoRemoveOrderItem (s : Store) (orderId itemId : Nat) : Except OrderError Store :=
  if s.items.any (fun item => item.id == itemId && item.orderId == orderId) then
    .ok { s with
          items := s.items.filter (fun item => !(item.id == itemId && item.orderId == orderId)) }
  else .error .orderItemNotFound

/-- `OrderRepository.UpdateOrderTotal`: update the `total` column of the
matching order row; `ErrOrderNotFound` when no row was affected. -/
def repoUpdateOrderTotal (s : Store) (orderId : Nat) (total : ℚ) : Except OrderError Store :=
  if s.orders.any (fun row => row.id == orderId) then
    .ok { s with
          orders := s.orders.map
            (fun row => if row.id == orderId then { row with total := total } else row) }
  else .error .orderNotFound

/-! ## Order use case (services/OrderService/internal/usecase) -/

/-- `dto.OrderItemInput`. -/
structure OrderItemInput where
  productID : Nat
  quantity : Int
  deriving DecidableEq, Repr

/-- `dto.CreateOrderRequest`. -/
structure CreateOrderRequest where
  userID : Nat
  shippingCost : ℚ
  shippingDurationDays : Int
  discount : ℚ
  items : List OrderItemInput
  deriving DecidableEq, Repr

/-- `dto.AddOrderItemRequest`. -/
structure AddOrderItemRequest where
  orderID : Nat
  productID : Nat
  quantity : Int
  deriving DecidableEq, Repr

/-- `OrderUsecase.ensureUserExists`: one `GetUserByID` call; any error is
wrapped as "user not found: %w", preserving the cause. -/
def ensureUserExists (env : Env) (userId : Nat) : Except OrderError Unit :=
  match env.userResult userId with
  | .error err => .error (.userNotFound err)
  | .ok _ => .ok ()

/-- `OrderUsecase.ensureProductExists`: one `GetProductByID` call; any
error is wrapped as "product not found: %w", preserving the cause; an OK
reply whose `GetProduct()` is nil yields the distinct
"product not found: empty response" error. -/
def ensureProductExists (env : Env) (productId : Nat) : Except OrderError Product :=
  match env.productResult productId with
  | .error err => .error (.productNotFound err)
  | .ok none => .error .productEmpty
  | .ok (some product) => .ok product

/-- The per-item loop of `OrderUsecase.CreateOrder`: validate each product
in request order, aborting at the first failure; on success return the
prepared `OrderItem`s (with `TotalPrice = UnitPrice * Quantity` snapshots)
and the accumulated `itemsTotal`. -/
def buildItems (env : Env) : List OrderItemInput → Except OrderError (List OrderItem × ℚ)
  | [] => .ok ([], 0)
  | input :: rest =>
    match ensureProductExists env input.productID with
    | .error err => .error err
    | .ok product =>
      let unitPrice := product.price
      let totalPrice := unitPrice * (input.quantity : ℚ)
      match buildItems env rest with
      | .error err => .error err
      | .ok (items, itemsTotal) =>
        .ok ({ id := 0, orderId := 0, productId := input.productID,
               quantity := input.quantity, unitPrice := unitPrice,
               totalPrice := totalPrice } :: items,
             totalPrice + itemsTotal)

/-- `OrderUsecase.CreateOrder`: validate the user, validate every item's
product (collecting price snapshots), compute the total, then persist the
order and all items in one repository transaction.  The pair returned is
the operation's result and the resulting store; every abort leaves the
store unchanged. -/
def createOrder (env : Env) (s : Store) (req : CreateOrderRequest) :
    Except OrderError Order × Store :=
  match ensureUserExists env req.userID with
  | .error err => (.error err, s)
  | .ok _ =>
    match buildItems env req.items with
    | .error err => (.error err, s)
    | .ok (items, itemsTotal) =>
      let total := calculateOrderTotal itemsTotal req.shippingCost req.discount
      let row : OrderRow :=
        { id := 0, userId := req.userID, shippingCost := req.shippingCost,
          shippingDurationDays := req.shippingDurationDays, discount := req.discount,
          total := total, status := .pending }
      match repoCreateOrder env s row items with
      | .error err => (.error err, s)
      | .ok (s2, oid) =>
        (.ok (mkOrder { row with id := oid } (assignItems oid s.nextItemId items)), s2)

/-- `OrderUsecase.AddOrderItem`: validate the product, insert the item,
reload the order with its current persisted item set, recompute the total
with `sumItemsTotal` / `calculateOrderTotal`, and persist it as a separate
`UpdateOrderTotal` write. -/
def addOrderItem (env : Env) (s : Store) (req : AddOrderItemRequest) :
    Except OrderError Order × Store :=
  match ensureProductExists env req.productID with
  | .error err => (.error err, s)
  | .ok product =>
    let unitPrice := product.price
    let item : OrderItem :=
      { id := 0, orderId := req.orderID, productId := req.productID,
        quantity := req.quantity, unitPrice := unitPrice,
        totalPrice := unitPrice * (req.quantity : ℚ) }
    match repoAddOrderItem s item with
    | .error err => (.error err, s)
    | .ok s1 =>
      match repoGetOrderByID s1 req.orderID with
      | .error err => (.error err, s1)
      | .ok order =>
        let itemsTotal := sumItemsTotal order.items
        let updatedTotal := calculateOrderTotal itemsTotal order.shippingCost order.discount
        match repoUpdateOrderTotal s1 order.id updatedTotal with
        | .error err => (.error err, s1)
        | .ok s2 => (.ok { order with total := updatedTotal }, s2)

/-- `OrderUsecase.RemoveOrderItem`: delete the item (scoped to the given
order), reload the order, recompute the total and persist it as a separate
`UpdateOrderTotal` write. -/
def removeOrderItem (_env : Env) (s : Store) (orderId itemId : Nat) :
    Except OrderError Order × Store :=
  match repoRemoveOrderItem s orderId itemId with
  | .error err => (.error err, s)
  | .ok s1 =>
    match repoGetOrderByID s1 orderId with
    | .error err => (.error err, s1)
    | .ok order =>
      let itemsTotal := sumItemsTotal order.items
      let updatedTotal := calculateOrderTotal itemsTotal order.shippingCost order.discount
      match repoUpdateOrderTotal s1 order.id updatedTotal with
      | .error err => (.error err, s1)
      | .ok s2 => (.ok { order with total := updatedTotal }, s2)

/-! ## gRPC delivery layer (handler struct validation) -/

/-- The `validator/v10` tags on `dto.CreateOrderRequest`:
`UserID required,gt=0`, `ShippingCost gte=0`, `ShippingDurationDays
gte=0`, `Discount gte=0`, `Items required,min=1,dive` with every item
`ProductID required,gt=0` and `Quantity required,gt=0`. -/
def validCreateOrderRequest (req : CreateOrderRequest) : Bool :=
  decide (0 < req.userID) && decide (0 ≤ req.shippingCost)
    && decide (0 ≤ req.shippingDurationDays) && decide (0 ≤ req.discount)
    && decide (1 ≤ req.items.length)
    && req.items.all (fun item => decide (0 < item.productID) && decide (0 < item.quantity))

/-- `OrderGRPCHandler.CreateOrder`: run the struct validator and reject
the request before the use case when it fails; otherwise delegate to
`OrderUsecase.CreateOrder`. -/
def handlerCreateOrder (env : Env) (s : Store) (req : CreateOrderRequest) :
    Except OrderError Order × Store :=
  if validCreateOrderRequest req then createOrder env s req
  else (.error .validationFailed, s)

/-! ## Store well-formedness and concrete fixtures -/

/-- Well-formedness of the relational store: serial ids already handed out
are below the sequences, and item rows reference existing order ids. -/
def Store.WF (s : Store) : Prop :=
  (∀ row ∈ s.orders, row.id < s.nextOrderId) ∧
  (∀ item ∈ s.items, item.id < s.nextItemId ∧ item.orderId < s.nextOrderId)

/-- Every persisted order has non-negative shipping cost and discount (the
data-model invariant; the gRPC handler's `gte=0` validation enforces it at
the boundary). -/
def Store.nonnegCharges (s : Store) : Prop :=
  ∀ row ∈ s.orders, 0 ≤ row.shippingCost ∧ 0 ≤ row.discount

/-- An environment in which both dependencies are healthy: the user
exists, every product exists with price 20, and the database accepts all
inserts. -/
def envAllOk : Env :=
  { userResult := fun _ => .ok ()
  , productResult := fun pid => .ok (some { id := pid, price := 20 })
  , orderInsertOk := true
  , itemInsertOk := fun _ => true }

/-- An empty store. -/
def emptyStore : Store :=
  { orders := [], items := [], nextOrderId := 1, nextItemId := 1 }

/-- The per-item contribution used by `sumItemsTotal`. -/
def itemContribution (item : OrderItem) : ℚ :=
  if 0 < item.totalPrice then item.totalPrice else item.unitPrice * (item.quantity : ℚ)

/-- The row (the Order without its preloaded items) corresponding to an
order value. -/
def orderRowOf (o : Order) : OrderRow :=
  { id := o.id, userId := o.userId, shippingCost := o.shippingCost,
    shippingDurationDays := o.shippingDurationDays, discount := o.discount,
    total := o.total, status := o.status }

/-- A concrete enabled breaker configuration: trip after 4 requests with
failure ratio 1/2, cool down for 5 ticks, one half-open probe. -/
def cbCfg1 : CircuitBreakerConfig :=
  { enabled := true, maxRequests := 1, interval := 0, timeout := 5,
    failureRate := 1/2, minRequests := 4 }

/-- A CreateOrder request with a negative discount (and everything else
well-formed). -/
def reqNegativeDiscount : CreateOrderRequest :=
  { userID := 1, shippingCost := 10, shippingDurationDays := 3, discount := -1,
    items := [{ productID := 7, quantity := 2 }] }

/-- An environment in which the user dependency's breaker is open and the
product dependency is reachable but failing with Unavailable. -/
def envBreakerOpenUser : Env :=
  { userResult := fun _ => .error .breakerOpen
  , productResult := fun _ => .error (.status .unavailable)
  , orderInsertOk := true
  , itemInsertOk := fun _ => true }

/-- An environment in which the user exists and the product service
answers OK but with an empty (nil) product payload. -/
def envEmptyProduct : Env :=
  { userResult := fun _ => .ok ()
  , productResult := fun _ => .ok none
  , orderInsertOk := true
  , itemInsertOk := fun _ => true }

/-- A store holding one pending order (id 1) with one item (id 5). -/
def storeOneOrder : Store :=
  { orders := [{ id := 1, userId := 1, shippingCost := 10, shippingDurationDays := 3,
                 discount := 5, total := 45, status := .pending }]
  , items := [{ id := 5, orderId := 1, productId := 7, quantity := 2,
                unitPrice := 20, totalPrice := 40 }]
  , nextOrderId := 2, nextItemId := 6 }

/-- A well-formed CreateOrder request for two units of product 7. -/
def reqOneItem : CreateOrderRequest :=
  { userID := 1, shippingCost := 10, shippingDurationDays := 3, discount := 5,
    items := [{ productID := 7, quantity := 2 }] }

/-- The order produced by `createOrder envAllOk emptyStore reqOneItem`:
itemsTotal 40, shipping 10, discount 5, total 45. -/
def orderAfterCreate : Order :=
  { id := 1, userId := 1, shippingCost := 10, shippingDurationDays := 3,
    discount := 5, total := 45, status := .pending,
    items := [{ id := 1, orderId := 1, productId := 7, quantity := 2,
                unitPrice := 20, totalPrice := 40 }] }

/-- The store produced by `createOrder envAllOk emptyStore reqOneItem`. -/
def storeAfterCreate : Store :=
  { orders := [{ id := 1, userId := 1, shippingCost := 10, shippingDurationDays := 3,
                 discount := 5, total := 45, status := .pending }]
  , items := [{ id := 1, orderId := 1, productId := 7, quantity := 2,
                unitPrice := 20, totalPrice := 40 }]
  , nextOrderId := 2, nextItemId := 2 }

/-- The order returned by adding one unit of product 9 (price 20) to the
order of `storeOneOrder`: items now 40 + 20, total 65. -/
def orderAfterAdd : Order :=
  { id := 1, userId := 1, shippingCost := 10, shippingDurationDays := 3,
    discount := 5, total := 65, status := .pending,
    items := [{ id := 5, orderId := 1, productId := 7, quantity := 2,
                unitPrice := 20, totalPrice := 40 },
              { id := 6, orderId := 1, productId := 9, quantity := 1,
                unitPrice := 20, totalPrice := 20 }] }

/-- The store produced by that AddOrderItem call. -/
def storeAfterAdd : Store :=
  { orders := [{ id := 1, userId := 1, shippingCost := 10, shippingDurationDays := 3,
                 discount := 5, total := 65, status := .pending }]
  , items := [{ id := 5, orderId := 1, productId := 7, quantity := 2,
                unitPrice := 20, totalPrice := 40 },
              { id := 6, orderId := 1, productId := 9, quantity := 1,
                unitPrice := 20, totalPrice := 20 }]
  , nextOrderId := 2, nextItemId := 7 }

/-- The order returned by removing item 5 from the order of
`storeOneOrder`: no items left, total max(0, 0 + 10 - 5) = 5. -/
def orderAfterRemove : Order :=
  { id := 1, userId := 1, shippingCost := 10, shippingDurationDays := 3,
    discount := 5, total := 5, status := .pending, items := [] }

/-- The store produced by that RemoveOrderItem call. -/
def storeAfterRemove : Store :=
  { orders := [{ id := 1, userId := 1, shippingCost := 10, shippingDurationDays := 3,
                 discount := 5, total := 5, status := .pending }]
  , items := [], nextOrderId := 2, nextItemId := 6 }

/-- Four call outcomes: two Unavailable failures followed by two
successes — failure ratio exactly 1/2. -/
def outcomes4 : List (Option CallError) :=
  [some (.status .unavailable), some (.status .unavailable), none, none]

/-- A Closed breaker that has seen 3 requests, 2 of them failures. -/
def bClosed3 : Breaker :=
  { state := .closed,
    counts := { requests := 3, totalSuccesses := 1, totalFailures := 2,
                consecutiveSuccesses := 0, consecutiveFailures := 2 },
    windowStart := 0, openedAt := 0 }

/-- A breaker that opened at tick 10. -/
def bOpen10 : Breaker :=
  { state := .opened, counts := Counts.clear, windowStart := 0, openedAt := 10 }

/-- A HalfOpen breaker with no probe yet. -/
def bHalf0 : Breaker :=
  { state := .halfOpen, counts := Counts.clear, windowStart := 15, openedAt := 10 }

/-- A HalfOpen breaker whose single probe budget is used up. -/
def bHalf1 : Breaker :=
  { state := .halfOpen,
    counts := { requests := 1, totalSuccesses := 1, totalFailures := 0,
                consecutiveSuccesses := 1, consecutiveFailures := 0 },
    windowStart := 15, openedAt := 10 }

/-! ## Arithmetic helper lemmas -/

theorem ite_neg_zero_eq_max (x : ℚ) : (if x < 0 then (0 : ℚ) else x) = max 0 x := by
  rcases lt_or_le x 0 with h | h
  · simp [h, max_eq_left h.le]
  · simp [not_lt.mpr h, max_eq_right h]

theorem calculateOrderTotal_eq_max (t sc d : ℚ) :
    calculateOrderTotal t sc d = max 0 (t + max 0 sc - max 0 d) := by
  simp only [calculateOrderTotal]
  rw [ite_neg_zero_eq_max, ite_neg_zero_eq_max, ite_neg_zero_eq_max]

theorem calculateOrderTotal_nonneg (t sc d : ℚ) : 0 ≤ calculateOrderTotal t sc d := by
  rw [calculateOrderTotal_eq_max]; exact le_max_left _ _

theorem calculateOrderTotal_clamp (t sc d : ℚ) :
    calculateOrderTotal t sc d = calculateOrderTotal t (max 0 sc) (max 0 d) := by
  rw [calculateOrderTotal_eq_max, calculateOrderTotal_eq_max,
    max_eq_right (le_max_left (0 : ℚ) sc), max_eq_right (le_max_left (0 : ℚ) d)]

theorem calculateOrderTotal_of_nonneg {sc d : ℚ} (t : ℚ) (hsc : 0 ≤ sc) (hd : 0 ≤ d) :
    calculateOrderTotal t sc d = max 0 (t + sc - d) := by
  rw [calculateOrderTotal_eq_max, max_eq_right hsc, max_eq_right hd]

/-! ## sumItemsTotal lemmas -/

theorem foldl_add_shift (g : OrderItem → ℚ) :
    ∀ (items : List OrderItem) (a : ℚ),
      items.foldl (fun acc item => acc + g item) a
        = a + items.foldl (fun acc item => acc + g item) 0 := by
  intro items
  induction items with
  | nil => intro a; simp
  | cons x xs ih =>
    intro a
    simp only [List.foldl_cons]
    rw [ih (a + g x), ih (0 + g x)]
    ring

theorem foldl_contribution_eq_sum (items : List OrderItem) :
    items.foldl (fun acc item => acc + itemContribution item) 0
      = (items.map itemContribution).sum := by
  induction items with
  | nil => simp
  | cons x xs ih =>
    simp only [List.foldl_cons, List.map_cons, List.sum_cons]
    rw [foldl_add_shift, ih]
    ring

theorem sumItemsTotal_eq_contribution_sum (items : List OrderItem) :
    sumItemsTotal items = (items.map itemContribution).sum := by
  have hfun : sumItemsTotal items
      = items.foldl (fun acc item => acc + itemContribution item) 0 := by
    unfold sumItemsTotal itemContribution
    congr 1
    funext acc item
    split <;> rfl
  rw [hfun, foldl_contribution_eq_sum]

theorem sumItemsTotal_eq_totalPrice_sum (items : List OrderItem)
    (h : ∀ item ∈ items, item.totalPrice = item.unitPrice * (item.quantity : ℚ)) :
    sumItemsTotal items = (items.map OrderItem.totalPrice).sum := by
  rw [sumItemsTotal_eq_contribution_sum]
  congr 1
  apply List.map_congr_left
  intro item hmem
  unfold itemContribution
  split
  · rfl
  · exact (h item hmem).symm

/-! ## buildItems and assignItems lemmas -/

theorem buildItems_ok_consistent (env : Env) :
    ∀ (inputs : List OrderItemInput) (items : List OrderItem) (t : ℚ),
      buildItems env inputs = .ok (items, t) →
      (∀ item ∈ items, item.totalPrice = item.unitPrice * (item.quantity : ℚ)) ∧
      t = (items.map OrderItem.totalPrice).sum := by
  intro inputs
  induction inputs with
  | nil =>
    intro items t h
    simp only [buildItems] at h
    cases h
    simp
  | cons input rest ih =>
    intro items t h
    simp only [buildItems] at h
    cases hprod : ensureProductExists env input.productID with
    | error err => rw [hprod] at h; cases h
    | ok product =>
      rw [hprod] at h
      cases hrest : buildItems env rest with
      | error err => rw [hrest] at h; cases h
      | ok pair =>
        obtain ⟨restItems, restTotal⟩ := pair
        rw [hrest] at h
        cases h
        obtain ⟨hcons, hsum⟩ := ih restItems restTotal hrest
        constructor
        · intro item hmem
          rcases List.mem_cons.mp hmem with heq | hmem2
          · subst heq; rfl
          · exact hcons item hmem2
        · simp [hsum]

theorem buildItems_ok_zip (env : Env) :
    ∀ (inputs : List OrderItemInput) (prods : List Product) (items : List OrderItem) (t : ℚ),
      List.Forall₂ (fun input product =>
        env.productResult input.productID = .ok (some product)) inputs prods →
      buildItems env inputs = .ok (items, t) →
      t = (List.zipWith
            (fun (input : OrderItemInput) (product : Product) =>
              product.price * (input.quantity : ℚ)) inputs prods).sum := by
  intro inputs prods items t hall
  induction hall generalizing items t with
  | nil =>
    intro h
    simp only [buildItems] at h
    cases h
    simp
  | cons hpr hrest ih =>
    rename_i input product inputs2 prods2
    intro h
    simp only [buildItems] at h
    have hp : ensureProductExists env input.productID = .ok product := by
      simp only [ensureProductExists, hpr]
    rw [hp] at h
    cases hbuild : buildItems env inputs2 with
    | error err => rw [hbuild] at h; cases h
    | ok pair =>
      obtain ⟨restItems, restTotal⟩ := pair
      rw [hbuild] at h
      cases h
      simp [ih restItems restTotal hbuild]

theorem buildItems_error_of_bad_item (env : Env) :
    ∀ (inputs : List OrderItemInput),
      (∃ input ∈ inputs, ∀ product, env.productResult input.productID ≠ .ok (some product)) →
      ∃ err, buildItems env inputs = .error err := by
  intro inputs
  induction inputs with
  | nil => rintro ⟨input, hmem, _⟩; cases hmem
  | cons input rest ih =>
    rintro ⟨bad, hmem, hbad⟩
    rcases List.mem_cons.mp hmem with heq | hmem2
    · subst heq
      cases hres : env.productResult bad.productID with
      | error err =>
        exact ⟨.productNotFound err, by simp [buildItems, ensureProductExists, hres]⟩
      | ok payload =>
        cases payload with
        | none => exact ⟨.productEmpty, by simp [buildItems, ensureProductExists, hres]⟩
        | some product => exact absurd hres (hbad product)
    · obtain ⟨err, herr⟩ := ih ⟨bad, hmem2, hbad⟩
      cases hres : env.productResult input.productID with
      | error e =>
        exact ⟨.productNotFound e, by simp [buildItems, ensureProductExists, hres]⟩
      | ok payload =>
        cases payload with
        | none => exact ⟨.productEmpty, by simp [buildItems, ensureProductExists, hres]⟩
        | some product =>
          exact ⟨err, by simp [buildItems, ensureProductExists, hres, herr]⟩

theorem buildItems_error_empty (env : Env) :
    ∀ (pre : List OrderItemInput) (input : OrderItemInput) (post : List OrderItemInput),
      (∀ i ∈ pre, ∃ product, env.productResult i.productID = .ok (some product)) →
      env.productResult input.productID = .ok none →
      buildItems env (pre ++ input :: post) = .error .productEmpty := by
  intro pre
  induction pre with
  | nil =>
    intro input post _ hempty
    simp [buildItems, ensureProductExists, hempty]
  | cons i rest ih =>
    intro input post hpre hempty
    obtain ⟨product, hprod⟩ := hpre i (List.mem_cons_self i rest)
    have hrest := ih input post (fun j hj => hpre j (List.mem_cons_of_mem i hj)) hempty
    simp [buildItems, ensureProductExists, hprod, hrest]

theorem assignItems_orderId (oid : Nat) :
    ∀ (items : List OrderItem) (fid : Nat) (item : OrderItem),
      item ∈ assignItems oid fid items → item.orderId = oid := by
  intro items
  induction items with
  | nil => intro fid item h; cases h
  | cons x xs ih =>
    intro fid item h
    rcases List.mem_cons.mp h with heq | hmem
    · subst heq; rfl
    · exact ih (fid + 1) item hmem

theorem assignItems_consistent (oid : Nat) :
    ∀ (items : List OrderItem) (fid : Nat),
      (∀ item ∈ items, item.totalPrice = item.unitPrice * (item.quantity : ℚ)) →
      ∀ item ∈ assignItems oid fid items,
        item.totalPrice = item.unitPrice * (item.quantity : ℚ) := by
  intro items
  induction items with
  | nil => intro fid _ item h; cases h
  | cons x xs ih =>
    intro fid hsrc item h
    rcases List.mem_cons.mp h with heq | hmem
    · subst heq; exact hsrc x (List.mem_cons_self x xs)
    · exact ih (fid + 1) (fun j hj => hsrc j (List.mem_cons_of_mem x hj)) item hmem

theorem assignItems_map_totalPrice (oid : Nat) :
    ∀ (items : List OrderItem) (fid : Nat),
      (assignItems oid fid items).map OrderItem.totalPrice
        = items.map OrderItem.totalPrice := by
  intro items
  induction items with
  | nil => intro fid; rfl
  | cons x xs ih =>
    intro fid
    simp only [assignItems, List.map_cons]
    rw [ih (fid + 1)]

/-! ## Claim theorems -/

/-- C5: the failure classifier is a pure function of the call outcome: a
nil error is never a breaker failure; status codes Unavailable,
DeadlineExceeded, ResourceExhausted and Internal, and any error that is
not a well-formed gRPC status, count as breaker failures; every other
well-formed status — NotFound in particular — does not, and a
success-classified outcome never increments the failure counter used for
tripping while the breaker is Closed. -/
theorem claim_C5_failure_classifier :
    isBreakerFailure none = false
    ∧ isBreakerFailure (some (.status .unavailable)) = true
    ∧ isBreakerFailure (some (.status .deadlineExceeded)) = true
    ∧ isBreakerFailure (some (.status .resourceExhausted)) = true
    ∧ isBreakerFailure (some (.status .internal)) = true
    ∧ isBreakerFailure (some .nonStatus) = true
    ∧ (∀ code : GrpcCode,
        code ≠ .unavailable → code ≠ .deadlineExceeded →
        code ≠ .resourceExhausted → code ≠ .internal →
        isBreakerFailure (some (.status code)) = false)
    ∧ isBreakerFailure (some (.status .notFound)) = false
    ∧ (∀ (cfg : CircuitBreakerConfig) (b : Breaker) (now : Nat) (o : Option CallError),
        b.state = .closed → isBreakerFailure o = false →
        ((breakerCall cfg b now o).2).counts.totalFailures ≤ b.counts.totalFailures) := by
  refine ⟨rfl, rfl, rfl, rfl, rfl, rfl, ?_, rfl, ?_⟩
  · intro code h1 h2 h3 h4
    cases code <;> simp_all [isBreakerFailure, statusFromError]
  · intro cfg b now o hstate hsucc
    by_cases hen : cfg.enabled
    · simp only [breakerCall, hen, Bool.not_true, Bool.false_eq_true, if_false, hstate,
        hsucc, Bool.false_eq_true, if_false]
      split <;> split <;> simp [Counts.clear, Counts.onSuccess]
    · simp [breakerCall, hen]

/-- C5 witness: at the concrete configuration `cbCfg1`, a NotFound status
from a reachable dependency is not classified as a breaker failure, and a
call completing with it from a fresh Closed breaker does not increase the
tripping failure counter. -/
theorem claim_C5_witness :
    isBreakerFailure (some (.status .notFound)) = false ∧
    ((breakerCall cbCfg1 Breaker.fresh 0 (some (.status .notFound))).2).counts.totalFailures
      ≤ Breaker.fresh.counts.totalFailures := by
  refine ⟨?_, ?_⟩
  · exact claim_C5_failure_classifier.2.2.2.2.2.2.1 .notFound
      (by decide) (by decide) (by decide) (by decide)
  · exact claim_C5_failure_classifier.2.2.2.2.2.2.2.2 cbCfg1 Breaker.fresh 0
      (some (.status .notFound)) rfl (by decide)

/-- C3 counterexample: the request `reqNegativeDiscount` has a negative
discount, yet the gRPC CreateOrder handler rejects it with the struct
validator's error before the use case runs — contradicting the claim that
CreateOrder accepts such inputs and completes. -/
theorem claim_C3_counterexample :
    reqNegativeDiscount.discount < 0 ∧
    handlerCreateOrder envAllOk emptyStore reqNegativeDiscount
      = (.error .validationFailed, emptyStore) :=
  ⟨by decide, rfl⟩

/-- C3 (amended): inside the total computation a negative shippingCost or
discount is clamped to zero (`calculateOrderTotal` is invariant under
clamping its shippingCost and discount arguments to zero and never
returns a negative total); however, the gRPC CreateOrder handler rejects
any request whose shippingCost or discount is negative via the `gte=0`
struct validation, so such inputs do not reach order creation. -/
theorem claim_C3_negative_inputs_amended :
    (∀ t sc d : ℚ,
      calculateOrderTotal t sc d = calculateOrderTotal t (max 0 sc) (max 0 d) ∧
      0 ≤ calculateOrderTotal t sc d) ∧
    (∀ (env : Env) (s : Store) (req : CreateOrderRequest),
      req.shippingCost < 0 ∨ req.discount < 0 →
      handlerCreateOrder env s req = (.error .validationFailed, s)) := by
  constructor
  · intro t sc d
    exact ⟨calculateOrderTotal_clamp t sc d, calculateOrderTotal_nonneg t sc d⟩
  · intro env s req hneg
    have hval : validCreateOrderRequest req = false := by
      unfold validCreateOrderRequest
      rcases hneg with h | h
      · have h2 : ¬ (0 ≤ req.shippingCost) := not_le.mpr h
        simp [h2]
      · have h2 : ¬ (0 ≤ req.discount) := not_le.mpr h
        simp [h2]
    simp [handlerCreateOrder, hval]

/-- C3 witness: the amended claim evaluated at the concrete total
`calculateOrderTotal 40 (-3) (-1)` and at the concrete rejected request
`reqNegativeDiscount`. -/
theorem claim_C3_amended_witness :
    (calculateOrderTotal 40 (-3) (-1)
        = calculateOrderTotal 40 (max 0 (-3)) (max 0 (-1)) ∧
      0 ≤ calculateOrderTotal 40 (-3) (-1)) ∧
    handlerCreateOrder envAllOk emptyStore reqNegativeDiscount
      = (.error .validationFailed, emptyStore) :=
  ⟨claim_C3_negative_inputs_amended.1 40 (-3) (-1),
   claim_C3_negative_inputs_amended.2 envAllOk emptyStore reqNegativeDiscount
     (Or.inr (by decide))⟩

/-- C8: each entity validator performs its single guarded call and
surfaces a failing outcome unchanged — the wrapped error keeps the exact
cause, breaker rejections included — without any internal retry (the
validators are straight-line single-call functions), and the cause kept in
the error lets the caller distinguish a breaker rejection from a remote
failure. -/
theorem claim_C8_validators_surface_causes (env : Env) (userId productId : Nat)
    (e : CallError) :
    (env.userResult userId = .error e →
      ensureUserExists env userId = .error (.userNotFound e)) ∧
    (env.productResult productId = .error e →
      ensureProductExists env productId = .error (.productNotFound e)) ∧
    orderErrorCause (.userNotFound e) = some e ∧
    orderErrorCause (.productNotFound e) = some e ∧
    isBreakerRejection CallError.breakerOpen = true ∧
    isBreakerRejection CallError.breakerTooMany = true ∧
    (∀ code : GrpcCode, isBreakerRejection (.status code) = false) ∧
    isBreakerRejection CallError.nonStatus = false := by
  refine ⟨?_, ?_, rfl, rfl, rfl, rfl, fun code => rfl, rfl⟩
  · intro h; simp [ensureUserExists, h]
  · intro h; simp [ensureProductExists, h]

/-- C8 witness: in `envBreakerOpenUser`, the user validator surfaces the
breaker-open rejection and the product validator surfaces the Unavailable
remote failure, and the two causes are distinguishable. -/
theorem claim_C8_witness :
    ensureUserExists envBreakerOpenUser 1 = .error (.userNotFound .breakerOpen) ∧
    ensureProductExists envBreakerOpenUser 7
      = .error (.productNotFound (.status .unavailable)) ∧
    isBreakerRejection CallError.breakerOpen = true ∧
    isBreakerRejection (.status .unavailable) = false := by
  obtain ⟨h1, -, -, -, h5, -, h7, -⟩ :=
    claim_C8_validators_surface_causes envBreakerOpenUser 1 7 CallError.breakerOpen
  obtain ⟨-, h2, -⟩ :=
    claim_C8_validators_surface_causes envBreakerOpenUser 1 7 (CallError.status .unavailable)
  exact ⟨h1 rfl, h2 rfl, h5, h7 .unavailable⟩

/-- C9: a RemoveOrderItem call for which no persisted item row has both
the requested item id and the requested order id returns the
item-not-found error and leaves the store — the order's total and the item
set — completely unchanged; no deletion and no total-recomputation write
happens. -/
theorem claim_C9_remove_missing_item (env : Env) (s : Store) (orderId itemId : Nat)
    (h : ∀ item ∈ s.items, ¬(item.id = itemId ∧ item.orderId = orderId)) :
    removeOrderItem env s orderId itemId = (.error .orderItemNotFound, s) := by
  have hany : (s.items.any (fun item => item.id == itemId && item.orderId == orderId))
      = false := by
    apply List.any_eq_false.mpr
    intro item hmem
    simpa [Bool.and_eq_true, beq_iff_eq] using h item hmem
  simp [removeOrderItem, repoRemoveOrderItem, hany]

/-- C9 witness: removing item 5 through order id 2 — the item exists but
belongs to order 1 — returns not-found and leaves the store untouched. -/
theorem claim_C9_witness :
    removeOrderItem envAllOk storeOneOrder 2 5 = (.error .orderItemNotFound, storeOneOrder) :=
  claim_C9_remove_missing_item envAllOk storeOneOrder 2 5 (by decide)

/-- C10: a product reply that is successful at the transport level (gRPC
OK, nil error) but carries an empty/absent product is treated exactly like
a validation failure: `ensureProductExists` returns the distinct
product-not-found error, CreateOrder and AddOrderItem abort with it before
any persistence (the store is unchanged), and the nil transport error of
that call is never classified as a breaker failure. -/
theorem claim_C10_empty_product_aborts (env : Env) (s : Store) :
    (∀ pid, env.productResult pid = .ok none →
      ensureProductExists env pid = .error .productEmpty) ∧
    (∀ (req : CreateOrderRequest) (pre : List OrderItemInput) (input : OrderItemInput)
        (post : List OrderItemInput),
      req.items = pre ++ input :: post →
      env.userResult req.userID = .ok () →
      (∀ i ∈ pre, ∃ product, env.productResult i.productID = .ok (some product)) →
      env.productResult input.productID = .ok none →
      createOrder env s req = (.error .productEmpty, s)) ∧
    (∀ req : AddOrderItemRequest, env.productResult req.productID = .ok none →
      addOrderItem env s req = (.error .productEmpty, s)) ∧
    isBreakerFailure none = false := by
  refine ⟨?_, ?_, ?_, rfl⟩
  · intro pid h
    simp [ensureProductExists, h]
  · intro req pre input post hitems huser hpre hempty
    have hbuild := buildItems_error_empty env pre input post hpre hempty
    simp [createOrder, ensureUserExists, huser, hitems, hbuild]
  · intro req h
    simp [addOrderItem, ensureProductExists, h]

/-- C10 witness: with the product service answering OK-but-empty, the
validator, CreateOrder (on the singleton item list) and AddOrderItem all
abort with the product-not-found error and leave the store unchanged,
while the OK outcome is not a breaker failure. -/
theorem claim_C10_witness :
    ensureProductExists envEmptyProduct 7 = .error .productEmpty ∧
    createOrder envEmptyProduct emptyStore reqOneItem = (.error .productEmpty, emptyStore) ∧
    addOrderItem envEmptyProduct storeOneOrder
      { orderID := 1, productID := 9, quantity := 1 } = (.error .productEmpty, storeOneOrder) ∧
    isBreakerFailure none = false := by
  obtain ⟨h1, h2, -, h4⟩ := claim_C10_empty_product_aborts envEmptyProduct emptyStore
  obtain ⟨-, -, h3, -⟩ := claim_C10_empty_product_aborts envEmptyProduct storeOneOrder
  exact ⟨h1 7 rfl,
    h2 reqOneItem [] { productID := 7, quantity := 2 } [] rfl rfl (by simp) rfl,
    h3 { orderID := 1, productID := 9, quantity := 1 } rfl, h4⟩

/-- C1: when a CreateOrder call succeeds (so the user validation and every
item's product validation succeeded, with `prods` the products returned by
the per-item validations), the created order's total equals
`max 0 (Σ unitPrice_i * quantity_i + shippingCost - discount)` with the
unit prices taken from the validation replies and shippingCost/discount
clamped to zero when negative, its initial status is pending, and the
persisted order row carries that same total and status. -/
theorem claim_C1_create_order_total (env : Env) (s : Store) (req : CreateOrderRequest)
    (prods : List Product) (order : Order) (s2 : Store)
    (hprods : List.Forall₂ (fun (input : OrderItemInput) (product : Product) =>
      env.productResult input.productID = .ok (some product)) req.items prods)
    (hok : createOrder env s req = (.ok order, s2)) :
    order.status = .pending ∧
    order.total = max 0 ((List.zipWith (fun (input : OrderItemInput) (product : Product) =>
        product.price * (input.quantity : ℚ)) req.items prods).sum
      + max 0 req.shippingCost - max 0 req.discount) ∧
    ∃ row ∈ s2.orders, row.id = order.id ∧ row.total = order.total ∧
      row.status = .pending := by
  unfold createOrder at hok
  split at hok
  · simp at hok
  · split at hok
    · simp at hok
    · rename_i items t hbuild
      simp only [] at hok
      split at hok
      · simp at hok
      · rename_i s3 oid hrepo
        unfold repoCreateOrder at hrepo
        split at hrepo
        · simp at hrepo
        · split at hrepo
          · simp at hrepo
          · simp only [Except.ok.injEq, Prod.mk.injEq] at hrepo hok
            obtain ⟨hs3, hoid⟩ := hrepo
            obtain ⟨horder, hs2⟩ := hok
            subst horder
            subst hs2
            subst hs3
            subst hoid
            have hzip := buildItems_ok_zip env req.items prods items t hprods hbuild
            refine ⟨rfl, ?_, ?_⟩
            · show calculateOrderTotal t req.shippingCost req.discount = _
              rw [calculateOrderTotal_eq_max, hzip]
            · exact ⟨_, List.mem_append_right _ (List.mem_singleton_self _),
                rfl, rfl, rfl⟩

/-- C1 witness: the spec's concrete scenario — userId 1, shippingCost 10,
discount 5, one item of product 7 with price 20 and quantity 2 — yields
itemsTotal 40 and persisted total 45 with status pending. -/
theorem claim_C1_witness :
    orderAfterCreate.status = .pending ∧
    orderAfterCreate.total
      = max 0 ((List.zipWith (fun (input : OrderItemInput) (product : Product) =>
          product.price * (input.quantity : ℚ)) reqOneItem.items
            [{ id := 7, price := 20 }]).sum
        + max 0 reqOneItem.shippingCost - max 0 reqOneItem.discount) ∧
    ∃ row ∈ storeAfterCreate.orders, row.id = orderAfterCreate.id ∧
      row.total = orderAfterCreate.total ∧ row.status = .pending :=
  claim_C1_create_order_total envAllOk emptyStore reqOneItem [{ id := 7, price := 20 }]
    orderAfterCreate storeAfterCreate
    (List.Forall₂.cons rfl List.Forall₂.nil)
    (by
      simp only [createOrder, ensureUserExists, buildItems, ensureProductExists,
        repoCreateOrder, assignItems, calculateOrderTotal, mkOrder, envAllOk,
        emptyStore, reqOneItem, orderAfterCreate, storeAfterCreate]
      norm_num)

/-- C2: a CreateOrder whose user validation fails returns that error with
the store untouched; a CreateOrder in which some requested item's product
validation can never succeed (for any reason) returns an error with the
store untouched; and persistence is all-or-nothing — the store either
stays exactly as it was or receives the order row together with all of its
item rows in one step. -/
theorem claim_C2_no_partial_persistence (env : Env) (s : Store) (req : CreateOrderRequest) :
    (∀ e, env.userResult req.userID = .error e →
      createOrder env s req = (.error (.userNotFound e), s)) ∧
    ((∃ input ∈ req.items, ∀ product,
        env.productResult input.productID ≠ .ok (some product)) →
      ∃ err, createOrder env s req = (.error err, s)) ∧
    ((createOrder env s req).2 = s ∨
      ∃ order, (createOrder env s req).1 = .ok order ∧
        (createOrder env s req).2.orders = s.orders ++ [orderRowOf order] ∧
        (createOrder env s req).2.items = s.items ++ order.items) := by
  refine ⟨?_, ?_, ?_⟩
  · intro e he
    simp [createOrder, ensureUserExists, he]
  · intro hbad
    obtain ⟨err, herr⟩ := buildItems_error_of_bad_item env req.items hbad
    cases huser : env.userResult req.userID with
    | error e => exact ⟨.userNotFound e, by simp [createOrder, ensureUserExists, huser]⟩
    | ok u => exact ⟨err, by simp [createOrder, ensureUserExists, huser, herr]⟩
  · unfold createOrder
    split
    · left; rfl
    · split
      · left; rfl
      · rename_i items t hbuild
        simp only []
        split
        · left; rfl
        · rename_i s3 oid hrepo
          unfold repoCreateOrder at hrepo
          split at hrepo
          · simp at hrepo
          · split at hrepo
            · simp at hrepo
            · simp only [Except.ok.injEq, Prod.mk.injEq] at hrepo
              obtain ⟨hs3, hoid⟩ := hrepo
              subst hs3
              subst hoid
              exact Or.inr ⟨_, rfl, rfl, rfl⟩

/-- C2 witness: a breaker-rejected user validation aborts CreateOrder with
the cause-preserving error and an unchanged store; an always-failing
product validation aborts it with an unchanged store; and the healthy run
satisfies the all-or-nothing disjunction. -/
theorem claim_C2_witness :
    createOrder envBreakerOpenUser emptyStore reqOneItem
      = (.error (.userNotFound .breakerOpen), emptyStore) ∧
    (∃ err, createOrder envEmptyProduct emptyStore reqOneItem = (.error err, emptyStore)) ∧
    ((createOrder envAllOk emptyStore reqOneItem).2 = emptyStore ∨
      ∃ order, (createOrder envAllOk emptyStore reqOneItem).1 = .ok order ∧
        (createOrder envAllOk emptyStore reqOneItem).2.orders
          = emptyStore.orders ++ [orderRowOf order] ∧
        (createOrder envAllOk emptyStore reqOneItem).2.items
          = emptyStore.items ++ order.items) := by
  refine ⟨?_, ?_, ?_⟩
  · exact (claim_C2_no_partial_persistence envBreakerOpenUser emptyStore reqOneItem).1
      .breakerOpen rfl
  · exact (claim_C2_no_partial_persistence envEmptyProduct emptyStore reqOneItem).2.1
      ⟨{ productID := 7, quantity := 2 }, by decide,
       fun product h => by simp [envEmptyProduct] at h⟩
  · exact (claim_C2_no_partial_persistence envAllOk emptyStore reqOneItem).2.2

/-- A successful `repoUpdateOrderTotal` updates a member row in place and
leaves the items table unchanged. -/
theorem repoUpdateOrderTotal_ok (s1 : Store) (oid : Nat) (T : ℚ) (s2 : Store)
    (row0 : OrderRow) (hmem0 : row0 ∈ s1.orders) (hid : row0.id = oid)
    (hupd : repoUpdateOrderTotal s1 oid T = .ok s2) :
    { row0 with total := T } ∈ s2.orders ∧ s2.items = s1.items := by
  unfold repoUpdateOrderTotal at hupd
  split at hupd
  · simp only [Except.ok.injEq] at hupd
    subst hupd
    refine ⟨?_, rfl⟩
    have hf := List.mem_map_of_mem
      (fun row => if row.id == oid then { row with total := T } else row) hmem0
    simpa [hid] using hf
  · simp at hupd

/-- The shared tail of `AddOrderItem` and `RemoveOrderItem`: reloading the
order and persisting the recomputed total makes the stored row satisfy the
total invariant, provided existing rows have non-negative charges. -/
theorem reload_update_total (s1 : Store) (oid : Nat) (order1 : Order) (s2 : Store)
    (hnn : ∀ row ∈ s1.orders, 0 ≤ row.shippingCost ∧ 0 ≤ row.discount)
    (hget : repoGetOrderByID s1 oid = .ok order1)
    (hupd : repoUpdateOrderTotal s1 order1.id
      (calculateOrderTotal (sumItemsTotal order1.items) order1.shippingCost
        order1.discount) = .ok s2) :
    ∃ row ∈ s2.orders, row.id = order1.id ∧
      row.total = max 0 (sumItemsTotal (s2.items.filter
        (fun item => item.orderId == row.id)) + row.shippingCost - row.discount) := by
  unfold repoGetOrderByID at hget
  split at hget
  · simp at hget
  · rename_i row0 hfind
    simp only [Except.ok.injEq] at hget
    have hmem0 := List.mem_of_find?_eq_some hfind
    have hid0 : row0.id = oid := by simpa using List.find?_some hfind
    subst hget
    subst hid0
    obtain ⟨hsc0, hd0⟩ := hnn row0 hmem0
    obtain ⟨hmem2, hitems2⟩ :=
      repoUpdateOrderTotal_ok s1 _ _ s2 row0 hmem0 rfl hupd
    refine ⟨_, hmem2, rfl, ?_⟩
    show calculateOrderTotal
        (sumItemsTotal (s1.items.filter (fun item => item.orderId == row0.id)))
        row0.shippingCost row0.discount
      = max 0 (sumItemsTotal (s2.items.filter (fun item => item.orderId == row0.id))
        + row0.shippingCost - row0.discount)
    rw [hitems2, calculateOrderTotal_of_nonneg _ hsc0 hd0]

/-- C4: after every successful CreateOrder (with non-negative request
charges, over a well-formed store), AddOrderItem and RemoveOrderItem (over
a store whose rows have non-negative charges), the stored order row
satisfies `total = max 0 (sumItemsTotal(persisted items of the order) +
shippingCost - discount)`, where `sumItemsTotal` recomputes from the full
persisted item set, preferring each item's stored totalPrice when
positive and deriving unitPrice * quantity otherwise. -/
theorem claim_C4_total_invariant (env : Env) :
    (∀ (s : Store) (req : CreateOrderRequest) (order : Order) (s2 : Store),
      Store.WF s → 0 ≤ req.shippingCost → 0 ≤ req.discount →
      createOrder env s req = (.ok order, s2) →
      ∃ row ∈ s2.orders, row.id = order.id ∧
        row.total = max 0 (sumItemsTotal (s2.items.filter
          (fun item => item.orderId == row.id)) + row.shippingCost - row.discount)) ∧
    (∀ (s : Store) (req : AddOrderItemRequest) (order : Order) (s2 : Store),
      s.nonnegCharges →
      addOrderItem env s req = (.ok order, s2) →
      ∃ row ∈ s2.orders, row.id = order.id ∧
        row.total = max 0 (sumItemsTotal (s2.items.filter
          (fun item => item.orderId == row.id)) + row.shippingCost - row.discount)) ∧
    (∀ (s : Store) (orderId itemId : Nat) (order : Order) (s2 : Store),
      s.nonnegCharges →
      removeOrderItem env s orderId itemId = (.ok order, s2) →
      ∃ row ∈ s2.orders, row.id = order.id ∧
        row.total = max 0 (sumItemsTotal (s2.items.filter
          (fun item => item.orderId == row.id)) + row.shippingCost - row.discount)) := by
  refine ⟨?_, ?_, ?_⟩
  · intro s req order s2 hWF hsc hd hok
    unfold createOrder at hok
    split at hok
    · simp at hok
    · split at hok
      · simp at hok
      · rename_i items t hbuild
        simp only [] at hok
        split at hok
        · simp at hok
        · rename_i s3 oid hrepo
          unfold repoCreateOrder at hrepo
          split at hrepo
          · simp at hrepo
          · split at hrepo
            · simp at hrepo
            · simp only [Except.ok.injEq, Prod.mk.injEq] at hrepo hok
              obtain ⟨hs3, hoid⟩ := hrepo
              obtain ⟨horder, hs2⟩ := hok
              subst horder
              subst hs2
              subst hs3
              subst hoid
              obtain ⟨hcons, hsum⟩ := buildItems_ok_consistent env req.items items t hbuild
              refine ⟨_, List.mem_append_right _ (List.mem_singleton_self _), rfl, ?_⟩
              show calculateOrderTotal t req.shippingCost req.discount = _
              have h1 : s.items.filter (fun item => item.orderId == s.nextOrderId) = [] := by
                rw [List.filter_eq_nil_iff]
                intro item hmem
                simp [Nat.ne_of_lt (hWF.2 item hmem).2]
              have h2 : (assignItems s.nextOrderId s.nextItemId items).filter
                  (fun item => item.orderId == s.nextOrderId)
                  = assignItems s.nextOrderId s.nextItemId items :=
                List.filter_eq_self.mpr (fun item hmem => by
                  simp [assignItems_orderId s.nextOrderId items s.nextItemId item hmem])
              have hfilter : (s.items ++ assignItems s.nextOrderId s.nextItemId items).filter
                  (fun item => item.orderId == s.nextOrderId)
                  = assignItems s.nextOrderId s.nextItemId items := by
                rw [List.filter_append, h1, h2, List.nil_append]
              have hsum2 : sumItemsTotal (assignItems s.nextOrderId s.nextItemId items) = t := by
                rw [sumItemsTotal_eq_totalPrice_sum _
                    (assignItems_consistent s.nextOrderId items s.nextItemId hcons),
                  assignItems_map_totalPrice, ← hsum]
              rw [calculateOrderTotal_of_nonneg t hsc hd]
              show _ = max 0 (sumItemsTotal ((s.items
                ++ assignItems s.nextOrderId s.nextItemId items).filter
                  (fun item => item.orderId == s.nextOrderId))
                + req.shippingCost - req.discount)
              rw [hfilter, hsum2]
  · intro s req order s2 hnn hok
    unfold addOrderItem at hok
    split at hok
    · simp at hok
    · rename_i product hprod
      dsimp only [] at hok
      split at hok
      · simp at hok
      · rename_i s1 hins
        split at hok
        · simp at hok
        · rename_i order1 hget
          split at hok
          · simp at hok
          · rename_i s4 hupd
            simp only [Prod.mk.injEq, Except.ok.injEq] at hok
            obtain ⟨horder, hs2⟩ := hok
            subst horder
            subst hs2
            have hs1orders : s1.orders = s.orders := by
              unfold repoAddOrderItem at hins
              split at hins
              · simp only [Except.ok.injEq] at hins
                subst hins
                rfl
              · simp at hins
            have hnn1 : ∀ row ∈ s1.orders, 0 ≤ row.shippingCost ∧ 0 ≤ row.discount := by
              rw [hs1orders]; exact hnn
            obtain ⟨row, hmem, hid, htot⟩ :=
              reload_update_total s1 req.orderID order1 s4 hnn1 hget hupd
            exact ⟨row, hmem, hid, htot⟩
  · intro s orderId itemId order s2 hnn hok
    unfold removeOrderItem at hok
    split at hok
    · simp at hok
    · rename_i s1 hdel
      split at hok
      · simp at hok
      · rename_i order1 hget
        simp only [] at hok
        split at hok
        · simp at hok
        · rename_i s4 hupd
          simp only [Prod.mk.injEq, Except.ok.injEq] at hok
          obtain ⟨horder, hs2⟩ := hok
          subst horder
          subst hs2
          have hs1orders : s1.orders = s.orders := by
            unfold repoRemoveOrderItem at hdel
            split at hdel
            · simp only [Except.ok.injEq] at hdel
              subst hdel
              rfl
            · simp at hdel
          have hnn1 : ∀ row ∈ s1.orders, 0 ≤ row.shippingCost ∧ 0 ≤ row.discount := by
            rw [hs1orders]; exact hnn
          obtain ⟨row, hmem, hid, htot⟩ :=
            reload_update_total s1 orderId order1 s4 hnn1 hget hupd
          exact ⟨row, hmem, hid, htot⟩

/-- C4 witness: the invariant checked after the three concrete mutations —
creating the 45-total order, adding a 20-priced item (total 65), and
removing the only item of the 45-total order (total 5). -/
theorem claim_C4_witness :
    (∃ row ∈ storeAfterCreate.orders, row.id = orderAfterCreate.id ∧
      row.total = max 0 (sumItemsTotal (storeAfterCreate.items.filter
        (fun item => item.orderId == row.id)) + row.shippingCost - row.discount)) ∧
    (∃ row ∈ storeAfterAdd.orders, row.id = orderAfterAdd.id ∧
      row.total = max 0 (sumItemsTotal (storeAfterAdd.items.filter
        (fun item => item.orderId == row.id)) + row.shippingCost - row.discount)) ∧
    (∃ row ∈ storeAfterRemove.orders, row.id = orderAfterRemove.id ∧
      row.total = max 0 (sumItemsTotal (storeAfterRemove.items.filter
        (fun item => item.orderId == row.id)) + row.shippingCost - row.discount)) := by
  refine ⟨?_, ?_, ?_⟩
  · exact (claim_C4_total_invariant envAllOk).1 emptyStore reqOneItem
      orderAfterCreate storeAfterCreate
      (by constructor <;> simp [emptyStore])
      (by norm_num [reqOneItem]) (by norm_num [reqOneItem])
      (by
        simp only [createOrder, ensureUserExists, buildItems, ensureProductExists,
          repoCreateOrder, assignItems, calculateOrderTotal, mkOrder, envAllOk,
          emptyStore, reqOneItem, orderAfterCreate, storeAfterCreate]
        norm_num)
  · exact (claim_C4_total_invariant envAllOk).2.1 storeOneOrder
      { orderID := 1, productID := 9, quantity := 1 } orderAfterAdd storeAfterAdd
      (by intro row hmem; simp [storeOneOrder] at hmem; subst hmem; norm_num)
      (by
        simp only [addOrderItem, ensureProductExists, envAllOk, repoAddOrderItem,
          repoGetOrderByID, repoUpdateOrderTotal, storeOneOrder, sumItemsTotal,
          calculateOrderTotal, mkOrder, orderAfterAdd, storeAfterAdd,
          List.find?, List.filter, List.any, List.foldl, List.map]
        norm_num)
  · exact (claim_C4_total_invariant envAllOk).2.2 storeOneOrder 1 5
      orderAfterRemove storeAfterRemove
      (by intro row hmem; simp [storeOneOrder] at hmem; subst hmem; norm_num)
      (by
        simp only [removeOrderItem, repoRemoveOrderItem, repoGetOrderByID,
          repoUpdateOrderTotal, storeOneOrder, sumItemsTotal, calculateOrderTotal,
          mkOrder, orderAfterRemove, storeAfterRemove,
          List.find?, List.filter, List.any, List.foldl, List.map]
        norm_num)

/-! ## Breaker run lemmas -/

/-- While fewer than `MinRequests` calls have completed (all at tick 0, so
the counting window never rolls), an enabled Closed breaker stays Closed
and just accumulates the request and failure counters. -/
theorem breakerRun_closed_under_min (cfg : CircuitBreakerConfig) (hEn : cfg.enabled = true)
    (N : Nat) (hMin : cfg.minRequests = N) :
    ∀ (outcomes : List (Option CallError)) (b : Breaker),
      b.state = .closed → b.windowStart = 0 →
      b.counts.requests + outcomes.length < N →
      (breakerRun cfg b 0 outcomes).state = .closed ∧
      (breakerRun cfg b 0 outcomes).counts.requests
        = b.counts.requests + outcomes.length ∧
      (breakerRun cfg b 0 outcomes).counts.totalFailures
        = b.counts.totalFailures + failCount outcomes ∧
      (breakerRun cfg b 0 outcomes).windowStart = 0 := by
  intro outcomes
  induction outcomes with
  | nil =>
    intro b hst hw _
    exact ⟨hst, by simp [breakerRun], by simp [breakerRun, failCount], hw⟩
  | cons o os ih =>
    intro b hst hw hlt
    have hN : 0 < N := lt_of_le_of_lt (Nat.zero_le _) hlt
    have hroll : (0 < cfg.interval && b.windowStart + cfg.interval ≤ (0 : Nat)) = false := by
      rw [hw]
      rcases Nat.eq_zero_or_pos cfg.interval with h | h
      · simp [h]
      · simp [Nat.not_le.mpr h]
    have hreqstep : (if isBreakerFailure o then b.counts.onFailure
        else b.counts.onSuccess).requests = b.counts.requests + 1 := by
      split <;> rfl
    have hreq1 : b.counts.requests + 1 < N := by
      simp only [List.length_cons] at hlt
      omega
    have htrip : readyToTrip cfg (if isBreakerFailure o then b.counts.onFailure
        else b.counts.onSuccess) = false := by
      simp [readyToTrip, hreqstep, hMin, hN, hreq1]
    have hcall : (breakerCall cfg b 0 o).2
        = { b with counts := (if isBreakerFailure o then b.counts.onFailure
            else b.counts.onSuccess) } := by
      simp only [breakerCall, hEn, Bool.not_true, Bool.false_eq_true, if_false, hst,
        hroll, htrip]
    have hstep : breakerRun cfg b 0 (o :: os)
        = breakerRun cfg { b with counts := (if isBreakerFailure o then b.counts.onFailure
            else b.counts.onSuccess) } 0 os := by
      simp only [breakerRun, List.foldl_cons]
      rw [← hcall]
    rw [hstep]
    cases hfail : isBreakerFailure o with
    | false =>
      simp only [hfail, Bool.false_eq_true, if_false]
      have hlt2 : ({ b with counts := b.counts.onSuccess } : Breaker).counts.requests
          + os.length < N := by
        simp only [Counts.onSuccess, List.length_cons] at hlt ⊢
        omega
      obtain ⟨h1, h2, h3, h4⟩ := ih { b with counts := b.counts.onSuccess } hst hw hlt2
      refine ⟨h1, ?_, ?_, h4⟩
      · rw [h2]
        simp only [Counts.onSuccess, List.length_cons]
        omega
      · rw [h3]
        simp [Counts.onSuccess, failCount, List.countP_cons, hfail]
    | true =>
      simp only [hfail, if_true]
      have hlt2 : ({ b with counts := b.counts.onFailure } : Breaker).counts.requests
          + os.length < N := by
        simp only [Counts.onFailure, List.length_cons] at hlt ⊢
        omega
      obtain ⟨h1, h2, h3, h4⟩ := ih { b with counts := b.counts.onFailure } hst hw hlt2
      refine ⟨h1, ?_, ?_, h4⟩
      · rw [h2]
        simp only [Counts.onFailure, List.length_cons]
        omega
      · rw [h3]
        simp [Counts.onFailure, failCount, List.countP_cons, hfail]
        omega

/-- C6: while Closed, the trip condition is checked after each completed
call — if the window's counts (after recording this call, with no pending
window roll) reach `MinRequests` requests and a failure ratio of at least
`FailureRatio`, the breaker transitions to Open — and in particular, for
`MinRequests = N` and `FailureRatio = r`, after `N` calls from a fresh
breaker of which at least `⌈N·r⌉` are classified failures, the breaker is
Open and the very next call is rejected with the breaker-open error,
independently of (and so without invoking) the wrapped target. -/
theorem claim_C6_trip_condition (cfg : CircuitBreakerConfig) (hEn : cfg.enabled = true) :
    (∀ (b : Breaker) (now : Nat) (o : Option CallError) (c2 : Counts),
      b.state = .closed →
      (0 < cfg.interval && b.windowStart + cfg.interval ≤ now) = false →
      c2 = (if isBreakerFailure o then b.counts.onFailure else b.counts.onSuccess) →
      cfg.minRequests ≤ c2.requests → 0 < c2.requests →
      cfg.failureRate ≤ (c2.totalFailures : ℚ) / (c2.requests : ℚ) →
      (breakerCall cfg b now o).2.state = .opened) ∧
    (∀ (N : Nat) (r : ℚ) (outcomes : List (Option CallError)),
      cfg.minRequests = N → 0 < N → cfg.failureRate = r → 0 < cfg.timeout →
      outcomes.length = N →
      (⌈(N : ℚ) * r⌉ : ℤ) ≤ (failCount outcomes : ℤ) →
      (breakerRun cfg Breaker.fresh 0 outcomes).state = .opened ∧
      ∀ o, breakerCall cfg (breakerRun cfg Breaker.fresh 0 outcomes) 0 o
        = (.rejectedOpen, breakerRun cfg Breaker.fresh 0 outcomes)) := by
  have htripOf : ∀ c2 : Counts, cfg.minRequests ≤ c2.requests → 0 < c2.requests →
      cfg.failureRate ≤ (c2.totalFailures : ℚ) / (c2.requests : ℚ) →
      readyToTrip cfg c2 = true := by
    intro c2 hmin hpos hrate
    have h1 : ¬ (c2.requests < cfg.minRequests) := Nat.not_lt.mpr hmin
    have h2 : c2.requests ≠ 0 := Nat.pos_iff_ne_zero.mp hpos
    simp [readyToTrip, h1, h2, hrate]
  constructor
  · intro b now o c2 hst hroll hc2 hmin hpos hrate
    have htrip : readyToTrip cfg
        (if isBreakerFailure o then b.counts.onFailure else b.counts.onSuccess) = true := by
      rw [← hc2]; exact htripOf c2 hmin hpos hrate
    simp only [breakerCall, hEn, Bool.not_true, Bool.false_eq_true, if_false, hst,
      hroll, htrip, if_true]
  · intro N r outcomes hMin hN hRate hT hLen hFail
    have hne : outcomes ≠ [] := by
      intro h
      rw [h] at hLen
      simp at hLen
      omega
    obtain ⟨os, o, houtcomes⟩ : ∃ os o, outcomes = os ++ [o] :=
      ⟨outcomes.dropLast, outcomes.getLast hne, (List.dropLast_append_getLast hne).symm⟩
    subst houtcomes
    have hLenOs : os.length + 1 = N := by simpa using hLen
    have hrun := breakerRun_closed_under_min cfg hEn N hMin os Breaker.fresh rfl rfl
      (by simp [Breaker.fresh, Counts.clear]; omega)
    obtain ⟨hst1, hreq1, hfail1, hw1⟩ := hrun
    have hreq2 : (breakerRun cfg Breaker.fresh 0 os).counts.requests = os.length := by
      rw [hreq1]; simp [Breaker.fresh, Counts.clear]
    have hfail2 : (breakerRun cfg Breaker.fresh 0 os).counts.totalFailures = failCount os := by
      rw [hfail1]; simp [Breaker.fresh, Counts.clear]
    have happ : breakerRun cfg Breaker.fresh 0 (os ++ [o])
        = (breakerCall cfg (breakerRun cfg Breaker.fresh 0 os) 0 o).2 := by
      simp [breakerRun, List.foldl_append]
    have hroll : (0 < cfg.interval
        && (breakerRun cfg Breaker.fresh 0 os).windowStart + cfg.interval ≤ (0:Nat))
        = false := by
      rw [hw1]
      rcases Nat.eq_zero_or_pos cfg.interval with h | h
      · simp [h]
      · simp [Nat.not_le.mpr h]
    have hfailcnt : failCount (os ++ [o])
        = failCount os + (if isBreakerFailure o then 1 else 0) := by
      simp [failCount, List.countP_append, List.countP_cons]
    have hc2req : (if isBreakerFailure o
        then (breakerRun cfg Breaker.fresh 0 os).counts.onFailure
        else (breakerRun cfg Breaker.fresh 0 os).counts.onSuccess).requests = N := by
      rcases h : isBreakerFailure o with _ | _ <;>
        simp [h, Counts.onFailure, Counts.onSuccess, hreq2, hLenOs]
    have hc2fail : (if isBreakerFailure o
        then (breakerRun cfg Breaker.fresh 0 os).counts.onFailure
        else (breakerRun cfg Breaker.fresh 0 os).counts.onSuccess).totalFailures
        = failCount (os ++ [o]) := by
      rw [hfailcnt]
      rcases h : isBreakerFailure o with _ | _ <;>
        simp [h, Counts.onFailure, Counts.onSuccess, hfail2]
    have hNQ : (0 : ℚ) < (N : ℚ) := by exact_mod_cast hN
    have hceil : ((N : ℚ) * r) ≤ (failCount (os ++ [o]) : ℚ) := by
      have := Int.ceil_le.mp hFail
      exact_mod_cast this
    have hrate : cfg.failureRate ≤ ((failCount (os ++ [o]) : ℚ) / (N : ℚ)) := by
      rw [hRate, le_div_iff₀ hNQ, mul_comm]
      exact hceil
    have htrip : readyToTrip cfg (if isBreakerFailure o
        then (breakerRun cfg Breaker.fresh 0 os).counts.onFailure
        else (breakerRun cfg Breaker.fresh 0 os).counts.onSuccess) = true := by
      apply htripOf
      · rw [hc2req, hMin]
      · rw [hc2req]; exact hN
      · rw [hc2req, hc2fail]; exact hrate
    have hcall : (breakerCall cfg (breakerRun cfg Breaker.fresh 0 os) 0 o).2
        = { state := .opened, counts := Counts.clear, windowStart := 0, openedAt := 0 } := by
      simp only [breakerCall, hEn, Bool.not_true, Bool.false_eq_true, if_false, hst1,
        hroll, htrip, if_true]
    rw [happ, hcall]
    refine ⟨rfl, ?_⟩
    intro o2
    simp [breakerCall, hEn, Nat.pos_iff_ne_zero.mp hT]

/-- C6 witness: at `cbCfg1` (MinRequests 4, FailureRatio 1/2), the general
trip clause fires on a Closed breaker reaching 4 requests with 3 failures,
and after the four concrete outcomes (2 failures = ⌈4·1/2⌉) from a fresh
breaker the breaker is Open and the next call is rejected without the
target being consulted. -/
theorem claim_C6_witness :
    (breakerCall cbCfg1 bClosed3 0 (some (.status .unavailable))).2.state = .opened ∧
    (breakerRun cbCfg1 Breaker.fresh 0 outcomes4).state = .opened ∧
    breakerCall cbCfg1 (breakerRun cbCfg1 Breaker.fresh 0 outcomes4) 0
        (some (.status .unavailable))
      = (.rejectedOpen, breakerRun cbCfg1 Breaker.fresh 0 outcomes4) := by
  obtain ⟨h2, h3⟩ := (claim_C6_trip_condition cbCfg1 rfl).2 4 (1/2) outcomes4 rfl
    (by decide) rfl (by decide) (by decide)
    (by
      have hc : failCount outcomes4 = 2 := by decide
      rw [hc, Int.ceil_le]
      push_cast
      norm_num)
  refine ⟨?_, h2, h3 (some (.status .unavailable))⟩
  exact (claim_C6_trip_condition cbCfg1 rfl).1 bClosed3 0 (some (.status .unavailable))
    _ rfl (by decide) rfl (by decide) (by decide)
    (by norm_num [cbCfg1, bClosed3, isBreakerFailure, statusFromError, Counts.onFailure])

/-- C7: for an enabled breaker — while Open, every call strictly before
`openedAt + Timeout` is rejected with the distinct breaker-open error,
the breaker unchanged and the target not invoked (the result does not
depend on the target's outcome); at or after that instant the call is
attempted as a HalfOpen probe; in HalfOpen, once `MaxRequests` probes are
in flight further calls are rejected, a failed probe returns the breaker
to Open with `openedAt = now`, and a probe completing the `MaxRequests`-th
consecutive success closes the breaker. -/
theorem claim_C7_open_halfopen_discipline (cfg : CircuitBreakerConfig)
    (hEn : cfg.enabled = true) :
    (∀ (b : Breaker) (now : Nat) (o : Option CallError),
      b.state = .opened → now < b.openedAt + cfg.timeout →
      breakerCall cfg b now o = (.rejectedOpen, b)) ∧
    (∀ (b : Breaker) (now : Nat) (o : Option CallError),
      b.state = .opened → b.openedAt + cfg.timeout ≤ now → 0 < cfg.maxRequests →
      (breakerCall cfg b now o).1 = .completed o ∧
      (isBreakerFailure o = true → (breakerCall cfg b now o).2.state = .opened ∧
        (breakerCall cfg b now o).2.openedAt = now) ∧
      (isBreakerFailure o = false → cfg.maxRequests = 1 →
        (breakerCall cfg b now o).2.state = .closed)) ∧
    (∀ (b : Breaker) (now : Nat) (o : Option CallError),
      b.state = .halfOpen → cfg.maxRequests ≤ b.counts.requests →
      breakerCall cfg b now o = (.rejectedTooMany, b)) ∧
    (∀ (b : Breaker) (now : Nat) (o : Option CallError),
      b.state = .halfOpen → b.counts.requests < cfg.maxRequests →
      isBreakerFailure o = true →
      breakerCall cfg b now o = (.completed o,
        { state := .opened, counts := Counts.clear, windowStart := now,
          openedAt := now })) ∧
    (∀ (b : Breaker) (now : Nat) (o : Option CallError),
      b.state = .halfOpen → b.counts.requests < cfg.maxRequests →
      isBreakerFailure o = false →
      cfg.maxRequests ≤ b.counts.consecutiveSuccesses + 1 →
      (breakerCall cfg b now o).2.state = .closed) := by
  refine ⟨?_, ?_, ?_, ?_, ?_⟩
  · intro b now o hst hlt
    simp [breakerCall, hEn, hst, Nat.not_le.mpr hlt]
  · intro b now o hst hle hM
    have hcap : ¬ (cfg.maxRequests ≤ Counts.clear.requests) := by
      simp [Counts.clear]
      omega
    refine ⟨?_, ?_, ?_⟩
    · simp only [breakerCall, hEn, Bool.not_true, Bool.false_eq_true, if_false, hst,
        if_pos hle, halfOpenCall, if_neg hcap]
      split
      · rfl
      · split <;> rfl
    · intro hfail
      constructor <;>
        simp [breakerCall, hEn, hst, if_pos hle, halfOpenCall, hcap, hfail]
    · intro hsucc hone
      simp [breakerCall, hEn, hst, if_pos hle, halfOpenCall, hcap, hsucc,
        Counts.onSuccess, Counts.clear, hone]
  · intro b now o hst hcap
    simp [breakerCall, hEn, hst, halfOpenCall, hcap]
  · intro b now o hst hlt hfail
    simp [breakerCall, hEn, hst, halfOpenCall, Nat.not_le.mpr hlt, hfail]
  · intro b now o hst hlt hsucc hclose
    simp [breakerCall, hEn, hst, halfOpenCall, Nat.not_le.mpr hlt, hsucc,
      Counts.onSuccess, hclose]

/-- C7 witness: at `cbCfg1` (Timeout 5, MaxRequests 1) with a breaker
opened at tick 10 — a call at tick 14 is rejected unchanged; at tick 15 a
successful probe is attempted and closes the breaker; a HalfOpen breaker
with its probe budget spent rejects; a failed probe reopens at the probe's
tick; a successful single probe closes. -/
theorem claim_C7_witness :
    breakerCall cbCfg1 bOpen10 14 (some .nonStatus) = (.rejectedOpen, bOpen10) ∧
    (breakerCall cbCfg1 bOpen10 15 none).1 = .completed none ∧
    (breakerCall cbCfg1 bOpen10 15 none).2.state = .closed ∧
    breakerCall cbCfg1 bHalf1 16 none = (.rejectedTooMany, bHalf1) ∧
    breakerCall cbCfg1 bHalf0 16 (some .nonStatus)
      = (.completed (some .nonStatus),
         { state := .opened, counts := Counts.clear, windowStart := 16,
           openedAt := 16 }) ∧
    (breakerCall cbCfg1 bHalf0 16 none).2.state = .closed := by
  obtain ⟨hA, hB, hC, hD, hE⟩ := claim_C7_open_halfopen_discipline cbCfg1 rfl
  refine ⟨hA bOpen10 14 (some .nonStatus) rfl (by decide), ?_, ?_, ?_, ?_, ?_⟩
  · exact (hB bOpen10 15 none rfl (by decide) (by decide)).1
  · exact (hB bOpen10 15 none rfl (by decide) (by decide)).2.2 (by decide) rfl
  · exact hC bHalf1 16 none rfl (by decide)
  · exact hD bHalf0 16 (some .nonStatus) rfl (by decide) (by decide)
  · exact hE bHalf0 16 none rfl (by decide) (by decide) (by decide)

end ECommerce
